import Mathlib

/- Verification development for the paginated retrieval and assembly engine of
   the gpuremail-backend repository.  The definitions below are a shallow
   embedding of the JavaScript sources: the primary engine is the
   "GET EMAILS - MORE ROBUST" handler (src/unnamed/part_000, lines 1-148);
   the variant handlers of src/unnamed/part_002 (lines 95-209) and of
   src/server.js (lines 91-197) are embedded separately where a claim refers
   to them.  External collaborators are modelled as oracles: the IMAP session
   outcomes (connection, openBox, search) and the per-message event stream of
   one fetch operation are inputs, and the external `simpleParser` library is
   an abstract function from a raw buffer to an optional parsed message
   (`none` models a parser exception). -/

/-- JS falsy-or chain step for optional string fields: `a || dflt`, where `a`
may be `undefined`/`null` (modelled as `none`) or a string; the empty string
is falsy in JS and also falls through to the default. -/
def jsOrS : Option String → String → String
  | some v, d => if v = "" then d else v
  | none, d => d

/-- Whitespace test modelling the JS `\s` character class (and `trim`) on the
ASCII range: space, tab, line feed, carriage return, vertical tab, form feed.
Unicode space characters are outside this model. -/
def isWs (c : Char) : Bool :=
  c = ' ' || c = '\t' || c = '\n' || c = '\r' || c = Char.ofNat 11 || c = Char.ofNat 12

/-- One global-replace pass of the JS regex `/<[^>]*>/g` with the empty string
(src/unnamed/part_000 line 92): at a `<` that is eventually closed by a `>`,
everything up to and including the first `>` is removed; an unclosed `<` is
kept verbatim. -/
def stripTagsFuel : Nat → List Char → List Char
  | 0, _ => []
  | _, [] => []
  | fuel + 1, c :: rest =>
    if c = '<' && rest.contains '>' then
      stripTagsFuel fuel ((rest.dropWhile (fun x => !(x = '>'))).drop 1)
    else
      c :: stripTagsFuel fuel rest

/-- Entry point of the tag-stripping pass.  The fuel equals the input length,
which bounds the number of steps since every step consumes at least one
character; fuel is only a totality device, not part of the JS semantics. -/
def stripTagsAux (l : List Char) : List Char :=
  stripTagsFuel l.length l

/-- Global replace of the JS regex `/\s+/g` with a single space
(src/unnamed/part_000 line 93): every maximal run of whitespace becomes one
space character. -/
def collapseWsFuel : Nat → List Char → List Char
  | 0, _ => []
  | _, [] => []
  | fuel + 1, c :: rest =>
    if isWs c then
      ' ' :: collapseWsFuel fuel (rest.dropWhile isWs)
    else
      c :: collapseWsFuel fuel rest

/-- Entry point of the whitespace-collapsing pass; fuel as in
`stripTagsAux`. -/
def collapseWsAux (l : List Char) : List Char :=
  collapseWsFuel l.length l

/-- JS `String.prototype.trim` (src/unnamed/part_000 line 94) restricted to
the ASCII whitespace of `isWs`. -/
def trimWs (l : List Char) : List Char :=
  ((l.dropWhile isWs).reverse.dropWhile isWs).reverse

/-- Preview derivation chain of src/unnamed/part_000 lines 91-95: strip HTML
tags, collapse whitespace runs, trim, truncate to 150 characters. -/
def previewChain (s : String) : String :=
  String.mk ((trimWs (collapseWsAux (stripTagsAux s.data))).take 150)

/-- Attribute metadata of one message as delivered by the transport's
`attributes` event: the UID and the flag strings. -/
structure Attrs where
  uid : Nat
  flags : List String
deriving DecidableEq

/-- Abstraction of the result of the external `simpleParser` library on one
raw message buffer: exactly the fields the handlers read.  Dates are epoch
milliseconds. -/
structure Parsed where
  subject : Option String
  fromName : Option String
  fromText : Option String
  fromAddr : Option String
  toText : Option String
  date : Option Int
  text : Option String
  textAsHtml : Option String
deriving DecidableEq

/-- Everything the transport delivered for one message before its
end-of-message event: the byte-chunk sequence (in arrival order, as strings),
the optional `attributes` event payload, and the optional `attributes`
property found on the message object itself at end time (src/unnamed/part_000
line 105 reads `msg.attributes`, which is distinct from the captured
`attributes` event payload of line 71). -/
structure MsgDelivery where
  chunks : List String
  attrsEvent : Option Attrs
  attrsProp : Option Attrs
deriving DecidableEq

/-- The buffer accumulated for a delivery: the in-order concatenation of its
chunks, mirroring `buffer = Buffer.concat([buffer, chunk])`
(src/unnamed/part_000 lines 63-68). -/
def joinChunks (d : MsgDelivery) : String :=
  d.chunks.foldl (fun a b => a ++ b) ""

/-- One event observed by the fetch operation, at end-of-message granularity:
a complete per-message delivery, the fetch deadline firing, the stream-level
`error` event (with its message), or the stream's terminal `end` event. -/
inductive FetchEv
  | msg (d : MsgDelivery)
  | timeout
  | streamError (emsg : String)
  | streamEnd
deriving DecidableEq

/-- Email summary record built by src/unnamed/part_000 lines 97-108. -/
structure Email where
  id : Nat
  subject : String
  «from» : String
  fromAddress : String
  «to» : String
  date : Int
  timestamp : Int
  unread : Bool
  starred : Bool
  preview : String
deriving DecidableEq

/-- Constructs the summary object of src/unnamed/part_000 lines 97-108 for a
delivery whose buffer parsed to `p`.  `now` models `Date.now()` /
`new Date()` at processing time.  Flags are read from the `attributes`
property on the message object (`msg.attributes`), defaulting to unread and
unstarred when that property is absent. -/
def emailObj (now : Int) (uid : Nat) (d : MsgDelivery) (p : Parsed) : Email :=
  { id := uid
    subject := jsOrS p.subject ("(No subject)")
    «from» := jsOrS p.fromName (jsOrS p.fromText ("Unknown"))
    fromAddress := jsOrS p.fromAddr ("")
    «to» := jsOrS p.toText ("")
    date := p.date.getD now
    timestamp := p.date.getD now
    unread :=
      match d.attrsProp with
      | some a => !(a.flags.contains ("\\Seen"))
      | none => true
    starred :=
      match d.attrsProp with
      | some a => a.flags.contains ("\\Flagged")
      | none => false
    preview := jsOrS (some (previewChain (jsOrS p.text (jsOrS p.textAsHtml ("")))))
      ("(No preview)") }

/-- Mutable state of the fetch promise of src/unnamed/part_000 lines 46-129:
the `results` array, the `processed` set of finalized UIDs, and the
`completed` counter. -/
structure JobState where
  results : List Email
  processed : List Nat
  completed : Nat
deriving DecidableEq

/-- The `msg.once('end')` handler of src/unnamed/part_000 lines 75-114:
increment `completed`; skip when no `attributes` event supplied a UID (JS
`!uid`, which also treats UID 0 as falsy) or when the UID was already
processed; otherwise mark the UID processed, skip empty buffers, attempt the
parse (a `none` result models the caught parser exception), and on success
append the summary. -/
def stepEnd (parser : String → Option Parsed) (now : Int) (st : JobState)
    (d : MsgDelivery) : JobState :=
  let st1 : JobState := { st with completed := st.completed + 1 }
  match d.attrsEvent with
  | none => st1
  | some a =>
    if a.uid = 0 ∨ a.uid ∈ st1.processed then st1
    else
      let st2 : JobState := { st1 with processed := a.uid :: st1.processed }
      if joinChunks d = "" then st2
      else
        match parser (joinChunks d) with
        | none => st2
        | some p => { st2 with results := st2.results ++ [emailObj now a.uid d p] }

/-- Descending-timestamp ordering used to model the stable JS
`results.sort((a, b) => b.timestamp - a.timestamp)`
(src/unnamed/part_000 line 125). -/
def tsDescRel (a b : Email) : Prop :=
  b.timestamp ≤ a.timestamp

instance : DecidableRel tsDescRel :=
  fun a b => (inferInstance : Decidable (b.timestamp ≤ a.timestamp))

instance : IsTotal Email tsDescRel :=
  ⟨fun a b => le_total b.timestamp a.timestamp⟩

instance : IsTrans Email tsDescRel :=
  ⟨fun _ _ _ h1 h2 => le_trans h2 h1⟩

/-- The fetch promise of src/unnamed/part_000 lines 46-129, driven by the
event sequence: message deliveries are folded through the end-of-message
handler; the first terminal event settles the promise.  The deadline
(`fetchTimeout`, lines 51-54) and the stream `error` handler (lines 117-121)
resolve with the accumulated results as they stand; the stream `end` handler
(lines 123-128) sorts by timestamp descending and resolves.  A trace with no
terminal event is settled by the 20-second deadline, which is always armed,
so the promise always resolves. -/
def runFetchJobAux (parser : String → Option Parsed) (now : Int) :
    JobState → List FetchEv → List Email
  | st, [] => st.results
  | st, FetchEv.msg d :: rest => runFetchJobAux parser now (stepEnd parser now st d) rest
  | st, FetchEv.timeout :: _ => st.results
  | st, FetchEv.streamError _ :: _ => st.results
  | st, FetchEv.streamEnd :: _ => List.insertionSort tsDescRel st.results

/-- Initial state of one fetch job. -/
def initState : JobState :=
  { results := [], processed := [], completed := 0 }

/-- The emails resolved by the fetch promise of src/unnamed/part_000 for a
given event trace. -/
def runFetchJob (parser : String → Option Parsed) (now : Int)
    (events : List FetchEv) : List Email :=
  runFetchJobAux parser now initState events

/-- Folds the per-message end handler over a list of events, ignoring
non-message events; used to describe the job state accumulated over a prefix
of the trace. -/
def stepEv (parser : String → Option Parsed) (now : Int) (st : JobState)
    (e : FetchEv) : JobState :=
  match e with
  | FetchEv.msg d => stepEnd parser now st d
  | _ => st

/-- Job state after processing a sequence of events from a given state. -/
def foldSteps (parser : String → Option Parsed) (now : Int) (st : JobState)
    (evs : List FetchEv) : JobState :=
  evs.foldl (stepEv parser now) st

/-- An event that settles the fetch promise. -/
def isTerminal : FetchEv → Bool
  | FetchEv.msg _ => false
  | _ => true

/-- UIDs carried by the attribute events of the deliveries in a trace. -/
def deliveredUids : List FetchEv → List Nat
  | [] => []
  | FetchEv.msg d :: rest =>
    (match d.attrsEvent with
     | some a => a.uid :: deliveredUids rest
     | none => deliveredUids rest)
  | _ :: rest => deliveredUids rest

/-- JS `Array.prototype.slice(s, e)`: negative indices count from the end of
the array, then indices are clamped to `[0, length]` and the elements in
`[start, end)` are returned. -/
def jsSlice {α : Type} (l : List α) (s e : Int) : List α :=
  let len : Int := (l.length : Int)
  let s1 : Int := if s < 0 then max (len + s) 0 else min s len
  let e1 : Int := if e < 0 then max (len + e) 0 else min e len
  (l.take e1.toNat).drop s1.toNat

/-- The UID window planner of src/unnamed/part_000 lines 29-34:
`startIdx = Math.max(0, totalMessages - page * pageSize)`,
`endIdx = totalMessages - (page - 1) * pageSize`,
`pageUids = uids.slice(startIdx, endIdx).reverse()`. -/
def pageUidsOf (uids : List Nat) (page pageSize : Nat) : List Nat :=
  let totalMessages := uids.length
  let startIdx : Int := max 0 ((totalMessages : Int) - (page : Int) * (pageSize : Int))
  let endIdx : Int := (totalMessages : Int) - ((page : Int) - 1) * (pageSize : Int)
  (jsSlice uids startIdx endIdx).reverse

/-- Pagination metadata record returned by the handlers. -/
structure Pagination where
  page : Nat
  pageSize : Nat
  totalMessages : Nat
  totalPages : Nat
  hasMore : Bool
deriving DecidableEq

/-- Success response body of the paginated handlers. -/
structure EmailsResponse (α : Type) where
  emails : List α
  pagination : Pagination
deriving DecidableEq

/-- Outcome of one request: a JSON success response, or an error status with
the error message (the handlers answer 500 with `err.message`). -/
inductive ApiResult (α : Type)
  | ok (r : EmailsResponse α)
  | err (status : Nat) (emsg : String)
deriving DecidableEq

/-- Emails of a success response, if the result is a success. -/
def ApiResult.emailsOf {α : Type} : ApiResult α → Option (List α)
  | ApiResult.ok r => some r.emails
  | ApiResult.err _ _ => none

/-- Whether the result is a success response. -/
def ApiResult.isOk {α : Type} : ApiResult α → Bool
  | ApiResult.ok _ => true
  | ApiResult.err _ _ => false

/-- Environment of one request against the IMAP collaborator: whether the
connection established, whether `openBox` failed, the opened box's message
total, the search outcome, the event trace the fetch operation will observe,
the parser oracle, and the processing-time clock. -/
structure ImapSession where
  connectOk : Bool
  openBoxError : Option String
  boxTotal : Nat
  searchResult : Except String (List Nat)
  trace : List FetchEv
  parser : String → Option Parsed
  now : Int

/-- The "GET EMAILS - MORE ROBUST" handler of src/unnamed/part_000
lines 1-148, as a function of the session environment and the resolved
`page` / `pageSize` request values.  Connection, `openBox` and search
failures propagate to a 500 error response (lines 143-147).  An empty box
short-circuits with page 1 metadata (lines 16-22); an empty UID window
short-circuits with the requested page echoed (lines 38-44); otherwise the
fetch job runs and its resolved emails are returned with the pagination
metadata of lines 133-142.  `totalPages` renders `Math.ceil` for the
positive page sizes the handler is specified for. -/
def fetchPage (s : ImapSession) (page pageSize : Nat) : ApiResult Email :=
  if s.connectOk then
    match s.openBoxError with
    | some m => ApiResult.err 500 m
    | none =>
      if s.boxTotal = 0 then
        ApiResult.ok ⟨[], ⟨1, pageSize, 0, 0, false⟩⟩
      else
        match s.searchResult with
        | Except.error m => ApiResult.err 500 m
        | Except.ok uids =>
          let totalMessages := uids.length
          let totalPages := (totalMessages + pageSize - 1) / pageSize
          let pageUids := pageUidsOf uids page pageSize
          if pageUids = [] then
            ApiResult.ok ⟨[], ⟨page, pageSize, totalMessages, totalPages,
              decide (page < totalPages)⟩⟩
          else
            ApiResult.ok ⟨runFetchJob s.parser s.now s.trace,
              ⟨page, pageSize, totalMessages, totalPages, decide (page < totalPages)⟩⟩
  else
    ApiResult.err 500 ("connection error")

/-- Email summary record built by the variant handler of src/unnamed/part_002
lines 160-171: `date` may be `null` and the preview is a fixed placeholder. -/
structure Email002 where
  id : Nat
  subject : String
  «from» : String
  fromAddress : String
  «to» : String
  date : Option Int
  timestamp : Int
  unread : Bool
  starred : Bool
  preview : String
deriving DecidableEq

/-- Summary constructor of src/unnamed/part_002 lines 160-171; flags come
from the captured `attributes` event payload. -/
def emailObj002 (now : Int) (a : Attrs) (p : Parsed) : Email002 :=
  { id := a.uid
    subject := jsOrS p.subject ("(No subject)")
    «from» := jsOrS p.fromName (jsOrS p.fromText ("Unknown"))
    fromAddress := jsOrS p.fromAddr ("")
    «to» := jsOrS p.toText ("")
    date := p.date
    timestamp := p.date.getD now
    unread := !(a.flags.contains ("\\Seen"))
    starred := a.flags.contains ("\\Flagged")
    preview := "(Click to load)" }

/-- The `msg.once('end')` handler of src/unnamed/part_002 lines 157-175:
no deduplication and no empty-buffer skip; a delivery with no `attributes`
event leaves `flags` undefined, so building the record throws inside the
`try` and the message is skipped; a parse exception is likewise caught and
the message skipped. -/
def stepEnd002 (parser : String → Option Parsed) (now : Int)
    (st : List Email002) (d : MsgDelivery) : List Email002 :=
  match d.attrsEvent with
  | none => st
  | some a =>
    match parser (joinChunks d) with
    | none => st
    | some p => st ++ [emailObj002 now a p]

/-- Descending-timestamp ordering for the part_002 variant's final sort
(src/unnamed/part_002 line 186). -/
def tsDescRel002 (a b : Email002) : Prop :=
  b.timestamp ≤ a.timestamp

instance : DecidableRel tsDescRel002 :=
  fun a b => (inferInstance : Decidable (b.timestamp ≤ a.timestamp))

/-- The fetch promise of src/unnamed/part_002 lines 132-190: the deadline
(line 134-136) REJECTS with "Fetch timeout", the stream `error` handler
(lines 178-181) REJECTS with the stream error, and only the stream `end`
handler (lines 183-189) sorts and resolves.  A trace with no terminal event
is rejected by the 25-second deadline. -/
def runJob002Aux (parser : String → Option Parsed) (now : Int) :
    List Email002 → List FetchEv → Except String (List Email002)
  | _, [] => Except.error ("Fetch timeout")
  | st, FetchEv.msg d :: rest => runJob002Aux parser now (stepEnd002 parser now st d) rest
  | _, FetchEv.timeout :: _ => Except.error ("Fetch timeout")
  | _, FetchEv.streamError m :: _ => Except.error m
  | st, FetchEv.streamEnd :: _ => Except.ok (List.insertionSort tsDescRel002 st)

/-- Emails resolved (or the rejection) of the part_002 fetch promise. -/
def runJob002 (parser : String → Option Parsed) (now : Int)
    (events : List FetchEv) : Except String (List Email002) :=
  runJob002Aux parser now [] events

/-- The "GET EMAILS" handler of src/unnamed/part_002 lines 95-209: same
prelude as part_000 (empty box short-circuits with page 1 metadata), but
there is no empty-window short-circuit, and a rejection of the fetch promise
(deadline or stream error) propagates to a 500 error response. -/
def fetchPage002 (s : ImapSession) (page pageSize : Nat) : ApiResult Email002 :=
  if s.connectOk then
    match s.openBoxError with
    | some m => ApiResult.err 500 m
    | none =>
      if s.boxTotal = 0 then
        ApiResult.ok ⟨[], ⟨1, pageSize, 0, 0, false⟩⟩
      else
        match s.searchResult with
        | Except.error m => ApiResult.err 500 m
        | Except.ok uids =>
          let totalMessages := uids.length
          let totalPages := (totalMessages + pageSize - 1) / pageSize
          let _pageUids := pageUidsOf uids page pageSize
          match runJob002 s.parser s.now s.trace with
          | Except.error m => ApiResult.err 500 m
          | Except.ok emails =>
            ApiResult.ok ⟨emails, ⟨page, pageSize, totalMessages, totalPages,
              decide (page < totalPages)⟩⟩
  else
    ApiResult.err 500 ("connection error")

/-- Request body fields read by the primary paginated handler of
src/server.js lines 91-94: `page` defaults to 1 when absent; the body may
also carry a `pageSize` field, which that handler never destructures.
Credentials and folder/filter selection are abstracted into the session
environment. -/
structure EmailsBody where
  page : Option Nat
  pageSize : Option Nat
deriving DecidableEq

/-- Email summary record built by src/server.js lines 155-168. -/
structure EmailSrv where
  id : Nat
  subject : String
  «from» : String
  fromAddress : String
  «to» : String
  date : Option Int
  timestamp : Int
  unread : Bool
  starred : Bool
  preview : String
  bodyText : Option String
  bodyHTML : Option String
deriving DecidableEq

/-- Summary constructor of src/server.js lines 155-168; flags come from the
captured `attributes` event payload; the preview is a fixed placeholder and
the bodies are `null`. -/
def emailSrvObj (now : Int) (a : Attrs) (p : Parsed) : EmailSrv :=
  { id := a.uid
    subject := jsOrS p.subject ("(No subject)")
    «from» := jsOrS p.fromName (jsOrS p.fromText ("Unknown"))
    fromAddress := jsOrS p.fromAddr ("")
    «to» := jsOrS p.toText ("")
    date := p.date
    timestamp := p.date.getD now
    unread := !(a.flags.contains ("\\Seen"))
    starred := a.flags.contains ("\\Flagged")
    preview := "(Click to load)"
    bodyText := none
    bodyHTML := none }

/-- The `msg.once('end')` handler of src/server.js lines 152-172: no
deduplication; a delivery with no `attributes` event leaves `flags`
undefined, so building the record throws inside the `try` and the message is
skipped; a parse exception is likewise caught and the message skipped. -/
def stepSrv (parser : String → Option Parsed) (now : Int)
    (st : List EmailSrv) (d : MsgDelivery) : List EmailSrv :=
  match d.attrsEvent with
  | none => st
  | some a =>
    match parser (joinChunks d) with
    | none => st
    | some p => st ++ [emailSrvObj now a p]

/-- The fetch promise of src/server.js lines 131-177: there is no deadline
timer at all, the stream `error` handler rejects, and the stream `end`
handler resolves the accumulated results WITHOUT sorting.  A trace with no
terminal event never settles the promise (`none`); a `timeout` event has no
listener in this handler and is skipped. -/
def runJobSrvAux (parser : String → Option Parsed) (now : Int) :
    List EmailSrv → List FetchEv → Option (Except String (List EmailSrv))
  | _, [] => none
  | st, FetchEv.msg d :: rest => runJobSrvAux parser now (stepSrv parser now st d) rest
  | st, FetchEv.timeout :: rest => runJobSrvAux parser now st rest
  | _, FetchEv.streamError m :: _ => some (Except.error m)
  | st, FetchEv.streamEnd :: _ => some (Except.ok st)

/-- Settled value of the src/server.js fetch promise, if it ever settles. -/
def runJobSrv (parser : String → Option Parsed) (now : Int)
    (events : List FetchEv) : Option (Except String (List EmailSrv)) :=
  runJobSrvAux parser now [] events

/-- The primary paginated handler of src/server.js lines 91-197: `page` is
read from the body with default 1, and `const pageSize = 25` is a local
constant (line 94) — the body is never consulted for it.  The
zero-message short-circuit (lines 114-120) tests the SEARCH result size.
`none` models a request that never completes because the fetch promise never
settles. -/
def serverJsFetchPage (s : ImapSession) (b : EmailsBody) :
    Option (ApiResult EmailSrv) :=
  let page := b.page.getD 1
  let pageSize := 25
  if s.connectOk then
    match s.openBoxError with
    | some m => some (ApiResult.err 500 m)
    | none =>
      match s.searchResult with
      | Except.error m => some (ApiResult.err 500 m)
      | Except.ok uids =>
        let totalMessages := uids.length
        if totalMessages = 0 then
          some (ApiResult.ok ⟨[], ⟨1, pageSize, 0, 0, false⟩⟩)
        else
          let totalPages := (totalMessages + pageSize - 1) / pageSize
          let _pageUids := pageUidsOf uids page pageSize
          match runJobSrv s.parser s.now s.trace with
          | none => none
          | some (Except.error m) => some (ApiResult.err 500 m)
          | some (Except.ok emails) =>
            some (ApiResult.ok ⟨emails, ⟨page, pageSize, totalMessages, totalPages,
              decide (page < totalPages)⟩⟩)
  else
    some (ApiResult.err 500 ("connection error"))

/-- Concrete parsed message with date 100, used in concrete evaluations. -/
def sampleParsedA : Parsed :=
  { subject := some ("Hi"), fromName := none, fromText := none, fromAddr := none
    toText := none, date := some 100, text := some ("hello"), textAsHtml := none }

/-- Concrete parsed message with date 200, used in concrete evaluations. -/
def sampleParsedB : Parsed :=
  { subject := some ("Re"), fromName := none, fromText := none, fromAddr := none
    toText := none, date := some 200, text := some ("world"), textAsHtml := none }

/-- Parser oracle that parses every buffer to `sampleParsedA`. -/
def parserConst : String → Option Parsed :=
  fun _ => some sampleParsedA

/-- Parser oracle mapping buffer "a" to the date-100 message and everything
else to the date-200 message. -/
def parserAB : String → Option Parsed :=
  fun b => if b = "a" then some sampleParsedA else some sampleParsedB

/-- Parser oracle that throws exactly on the buffer "bad". -/
def parserFailBad : String → Option Parsed :=
  fun b => if b = "bad" then none else some sampleParsedA

/-- Delivery of UID 1 with buffer "a" and full attribute metadata. -/
def deliveryA : MsgDelivery :=
  { chunks := ["a"], attrsEvent := some ⟨1, []⟩, attrsProp := some ⟨1, []⟩ }

/-- Delivery of UID 2 with buffer "b" and full attribute metadata. -/
def deliveryB : MsgDelivery :=
  { chunks := ["b"], attrsEvent := some ⟨2, []⟩, attrsProp := some ⟨2, []⟩ }

/-- Delivery with a non-empty buffer whose `attributes` event never arrived. -/
def deliveryNoAttrs : MsgDelivery :=
  { chunks := ["Hello"], attrsEvent := none, attrsProp := none }

/-- Delivery of UID 5 whose `attributes` event arrived (supplying the UID)
but whose message object carries no `attributes` property at end time. -/
def deliveryPropless : MsgDelivery :=
  { chunks := ["x"], attrsEvent := some ⟨5, []⟩, attrsProp := none }

/-- Delivery of UID 7 whose buffer "bad" fails to parse. -/
def deliveryBad : MsgDelivery :=
  { chunks := ["bad"], attrsEvent := some ⟨7, []⟩, attrsProp := some ⟨7, []⟩ }

/-- Session where the fetch deadline fires after one completed delivery. -/
def envDeadline : ImapSession :=
  { connectOk := true, openBoxError := none, boxTotal := 3
    searchResult := Except.ok [1, 2, 3]
    trace := [FetchEv.msg deliveryA, FetchEv.timeout]
    parser := parserConst, now := 0 }

/-- Session where two deliveries complete in ascending timestamp order and
then the deadline fires, so the partial result is returned unsorted. -/
def envUnsorted : ImapSession :=
  { connectOk := true, openBoxError := none, boxTotal := 2
    searchResult := Except.ok [1, 2]
    trace := [FetchEv.msg deliveryA, FetchEv.msg deliveryB, FetchEv.timeout]
    parser := parserAB, now := 0 }

/-- Session where two deliveries complete and the stream ends normally. -/
def envStreamEnd : ImapSession :=
  { connectOk := true, openBoxError := none, boxTotal := 2
    searchResult := Except.ok [1, 2]
    trace := [FetchEv.msg deliveryA, FetchEv.msg deliveryB, FetchEv.streamEnd]
    parser := parserAB, now := 0 }

/-- Session where the stream errors after one completed delivery. -/
def envStreamError : ImapSession :=
  { connectOk := true, openBoxError := none, boxTotal := 2
    searchResult := Except.ok [1, 2]
    trace := [FetchEv.msg deliveryA, FetchEv.streamError ("socket reset")]
    parser := parserConst, now := 0 }

/-- Session whose mailbox is non-empty but whose filter matched no messages. -/
def envFilterEmpty : ImapSession :=
  { connectOk := true, openBoxError := none, boxTotal := 5
    searchResult := Except.ok []
    trace := [], parser := parserConst, now := 0 }

/-- Session whose mailbox is empty. -/
def envBoxEmpty : ImapSession :=
  { connectOk := true, openBoxError := none, boxTotal := 0
    searchResult := Except.ok []
    trace := [], parser := parserConst, now := 0 }

/-- Session where the second delivery's buffer fails to parse. -/
def envParseFault : ImapSession :=
  { connectOk := true, openBoxError := none, boxTotal := 2
    searchResult := Except.ok [1, 7]
    trace := [FetchEv.msg deliveryA, FetchEv.msg deliveryBad, FetchEv.streamEnd]
    parser := parserFailBad, now := 0 }

/-- Session delivering a non-empty buffer whose attributes event never
arrives, followed by a normal stream end. -/
def envNoAttrs : ImapSession :=
  { connectOk := true, openBoxError := none, boxTotal := 1
    searchResult := Except.ok [1]
    trace := [FetchEv.msg deliveryNoAttrs, FetchEv.streamEnd]
    parser := parserConst, now := 0 }

/-- Session for the src/server.js handler with one message and a normal
stream end. -/
def envSrv : ImapSession :=
  { connectOk := true, openBoxError := none, boxTotal := 1
    searchResult := Except.ok [1]
    trace := [FetchEv.msg deliveryA, FetchEv.streamEnd]
    parser := parserConst, now := 0 }

/-- Request body supplying page 1 and no pageSize. -/
def bodyPage1 : EmailsBody :=
  { page := some 1, pageSize := none }

/-- The fetch promise of part_000 settles with the unsorted accumulated
results when the first terminal event of the trace is the deadline or a
stream error. -/
theorem runFetchJobAux_partial (parser : String → Option Parsed) (now : Int)
    (st : JobState) (tr : List FetchEv)
    (h : tr.find? isTerminal = some FetchEv.timeout ∨
      ∃ m, tr.find? isTerminal = some (FetchEv.streamError m)) :
    runFetchJobAux parser now st tr =
      (foldSteps parser now st (tr.takeWhile (fun e => !isTerminal e))).results := by
  induction tr generalizing st with
  | nil =>
    rcases h with h | ⟨m, h⟩ <;> simp [List.find?] at h
  | cons ev rest ih =>
    cases ev with
    | msg d =>
      have hf : isTerminal (FetchEv.msg d) = false := rfl
      rw [List.find?_cons_of_neg _ (by simp [hf])] at h
      simp only [runFetchJobAux, List.takeWhile_cons, hf, Bool.not_false, if_pos,
        foldSteps, List.foldl_cons]
      exact ih (stepEnd parser now st d) h
    | timeout =>
      simp [runFetchJobAux, List.takeWhile_cons, isTerminal, foldSteps]
    | streamError m =>
      simp [runFetchJobAux, List.takeWhile_cons, isTerminal, foldSteps]
    | streamEnd =>
      rw [List.find?_cons_of_pos _ (by rfl)] at h
      rcases h with h | ⟨m, h⟩ <;> simp at h

/-- The fetch promise of part_000 settles with the SORTED accumulated results
when the first terminal event of the trace is the stream's end event. -/
theorem runFetchJobAux_streamEnd (parser : String → Option Parsed) (now : Int)
    (st : JobState) (tr : List FetchEv)
    (h : tr.find? isTerminal = some FetchEv.streamEnd) :
    runFetchJobAux parser now st tr =
      List.insertionSort tsDescRel
        (foldSteps parser now st (tr.takeWhile (fun e => !isTerminal e))).results := by
  induction tr generalizing st with
  | nil => simp [List.find?] at h
  | cons ev rest ih =>
    cases ev with
    | msg d =>
      have hf : isTerminal (FetchEv.msg d) = false := rfl
      rw [List.find?_cons_of_neg _ (by simp [hf])] at h
      simp only [runFetchJobAux, List.takeWhile_cons, hf, Bool.not_false, if_pos,
        foldSteps, List.foldl_cons]
      exact ih (stepEnd parser now st d) h
    | timeout =>
      rw [List.find?_cons_of_pos _ (by rfl)] at h
      simp at h
    | streamError m =>
      rw [List.find?_cons_of_pos _ (by rfl)] at h
      simp at h
    | streamEnd =>
      simp [runFetchJobAux, List.takeWhile_cons, isTerminal, foldSteps]

/-- In a trace made of non-terminal events followed by a terminal event, the
first terminal is that event. -/
theorem find?_append_terminal (pre post : List FetchEv) (t : FetchEv)
    (hpre : ∀ e ∈ pre, isTerminal e = false) (ht : isTerminal t = true) :
    (pre ++ t :: post).find? isTerminal = some t := by
  induction pre with
  | nil => rw [List.nil_append, List.find?_cons_of_pos _ ht]
  | cons e pre ih =>
    have he : isTerminal e = false := hpre e (List.mem_cons_self e pre)
    rw [List.cons_append, List.find?_cons_of_neg _ (by simp [he])]
    exact ih (fun x hx => hpre x (List.mem_cons_of_mem e hx))

/-- The non-terminal prefix of such a trace is exactly `pre`. -/
theorem takeWhile_append_terminal (pre post : List FetchEv) (t : FetchEv)
    (hpre : ∀ e ∈ pre, isTerminal e = false) (ht : isTerminal t = true) :
    (pre ++ t :: post).takeWhile (fun e => !isTerminal e) = pre := by
  induction pre with
  | nil => simp [List.takeWhile_cons, ht]
  | cons e pre ih =>
    have he : isTerminal e = false := hpre e (List.mem_cons_self e pre)
    simp only [List.cons_append, List.takeWhile_cons, he, Bool.not_false, if_pos]
    rw [ih (fun x hx => hpre x (List.mem_cons_of_mem e hx))]

/-- Case analysis of the end-of-message handler's effect on the results
list: either unchanged, or one summary for the delivered UID appended. -/
theorem stepEnd_results_cases (parser : String → Option Parsed) (now : Int)
    (st : JobState) (d : MsgDelivery) :
    (stepEnd parser now st d).results = st.results ∨
    ∃ a p, d.attrsEvent = some a ∧
      (stepEnd parser now st d).results = st.results ++ [emailObj now a.uid d p] := by
  cases hd : d.attrsEvent with
  | none => left; simp [stepEnd, hd]
  | some a =>
    by_cases hg : a.uid = 0 ∨ a.uid ∈ st.processed
    · left; simp [stepEnd, hd, hg]
    · by_cases hb : joinChunks d = ""
      · left; simp [stepEnd, hd, hg, hb]
      · cases hp : parser (joinChunks d) with
        | none => left; simp [stepEnd, hd, hg, hb, hp]
        | some p => right; exact ⟨a, p, rfl, by simp [stepEnd, hd, hg, hb, hp]⟩

/-- Case analysis of the end-of-message handler's effect on the processed
set: either unchanged, or the delivered UID inserted. -/
theorem stepEnd_processed_cases (parser : String → Option Parsed) (now : Int)
    (st : JobState) (d : MsgDelivery) :
    (stepEnd parser now st d).processed = st.processed ∨
    ∃ a, d.attrsEvent = some a ∧
      (stepEnd parser now st d).processed = a.uid :: st.processed := by
  cases hd : d.attrsEvent with
  | none => left; simp [stepEnd, hd]
  | some a =>
    by_cases hg : a.uid = 0 ∨ a.uid ∈ st.processed
    · left; simp [stepEnd, hd, hg]
    · by_cases hb : joinChunks d = ""
      · right; exact ⟨a, rfl, by simp [stepEnd, hd, hg, hb]⟩
      · cases hp : parser (joinChunks d) with
        | none => right; exact ⟨a, rfl, by simp [stepEnd, hd, hg, hb, hp]⟩
        | some p => right; exact ⟨a, rfl, by simp [stepEnd, hd, hg, hb, hp]⟩

/-- A delivery whose buffer fails to parse (or is empty, or carries no UID,
or repeats a processed UID) contributes nothing to the results list. -/
theorem stepEnd_results_of_parseFail (parser : String → Option Parsed) (now : Int)
    (st : JobState) (d : MsgDelivery)
    (hp : parser (joinChunks d) = none) :
    (stepEnd parser now st d).results = st.results := by
  cases hd : d.attrsEvent with
  | none => simp [stepEnd, hd]
  | some a =>
    by_cases hg : a.uid = 0 ∨ a.uid ∈ st.processed
    · simp [stepEnd, hd, hg]
    · by_cases hb : joinChunks d = ""
      · simp [stepEnd, hd, hg, hb]
      · simp [stepEnd, hd, hg, hb, hp]

/-- Two job states with equal results lists that agree on membership of all
UIDs delivered later in the trace settle to the same emails. -/
theorem runFetchJobAux_congr (parser : String → Option Parsed) (now : Int)
    (tr : List FetchEv) (st1 st2 : JobState)
    (hres : st1.results = st2.results)
    (hproc : ∀ u ∈ deliveredUids tr, (u ∈ st1.processed ↔ u ∈ st2.processed)) :
    runFetchJobAux parser now st1 tr = runFetchJobAux parser now st2 tr := by
  induction tr generalizing st1 st2 with
  | nil => simp [runFetchJobAux, hres]
  | cons ev rest ih =>
    cases ev with
    | timeout => simp [runFetchJobAux, hres]
    | streamError m => simp [runFetchJobAux, hres]
    | streamEnd => simp [runFetchJobAux, hres]
    | msg d =>
      simp only [runFetchJobAux]
      cases hd : d.attrsEvent with
      | none =>
        apply ih
        · simpa [stepEnd, hd] using hres
        · intro u hu
          simpa [stepEnd, hd] using hproc u (by simp [deliveredUids, hd, hu])
      | some a =>
        have hiff := hproc a.uid (by simp [deliveredUids, hd])
        by_cases hg : a.uid = 0 ∨ a.uid ∈ st1.processed
        · have hg2 : a.uid = 0 ∨ a.uid ∈ st2.processed := by tauto
          apply ih
          · simpa [stepEnd, hd, hg, hg2] using hres
          · intro u hu
            simpa [stepEnd, hd, hg, hg2] using
              hproc u (by simp [deliveredUids, hd, hu])
        · have hg2 : ¬(a.uid = 0 ∨ a.uid ∈ st2.processed) := by tauto
          by_cases hb : joinChunks d = ""
          · apply ih
            · simpa [stepEnd, hd, hg, hg2, hb] using hres
            · intro u hu
              have := hproc u (by simp [deliveredUids, hd, hu])
              simp [stepEnd, hd, hg, hg2, hb, this]
          · cases hp : parser (joinChunks d) with
            | none =>
              apply ih
              · simpa [stepEnd, hd, hg, hg2, hb, hp] using hres
              · intro u hu
                have := hproc u (by simp [deliveredUids, hd, hu])
                simp [stepEnd, hd, hg, hg2, hb, hp, this]
            | some p =>
              apply ih
              · simpa [stepEnd, hd, hg, hg2, hb, hp] using hres
              · intro u hu
                have := hproc u (by simp [deliveredUids, hd, hu])
                simp [stepEnd, hd, hg, hg2, hb, hp, this]

/-- The end-of-message handler preserves the deduplication invariant: result
ids stay pairwise distinct and every result id stays registered in the
processed set. -/
theorem stepEnd_inv (parser : String → Option Parsed) (now : Int)
    (st : JobState) (d : MsgDelivery)
    (h1 : (st.results.map (fun e => e.id)).Nodup)
    (h2 : ∀ e ∈ st.results, e.id ∈ st.processed) :
    ((stepEnd parser now st d).results.map (fun e => e.id)).Nodup ∧
    ∀ e ∈ (stepEnd parser now st d).results,
      e.id ∈ (stepEnd parser now st d).processed := by
  cases hd : d.attrsEvent with
  | none =>
    refine ⟨by simpa [stepEnd, hd] using h1, ?_⟩
    intro e he
    simp only [stepEnd, hd] at he ⊢
    exact h2 e he
  | some a =>
    by_cases hg : a.uid = 0 ∨ a.uid ∈ st.processed
    · refine ⟨by simpa [stepEnd, hd, hg] using h1, ?_⟩
      intro e he
      simp only [stepEnd, hd, hg, if_true] at he ⊢
      exact h2 e he
    · have hnot : a.uid ∉ st.processed := fun hmem => hg (Or.inr hmem)
      by_cases hb : joinChunks d = ""
      · refine ⟨by simpa [stepEnd, hd, hg, hb] using h1, ?_⟩
        intro e he
        simp only [stepEnd, hd, hg, hb] at he ⊢
        exact List.mem_cons_of_mem _ (h2 e he)
      · cases hp : parser (joinChunks d) with
        | none =>
          refine ⟨by simpa [stepEnd, hd, hg, hb, hp] using h1, ?_⟩
          intro e he
          simp only [stepEnd, hd, hg, hb, hp] at he ⊢
          exact List.mem_cons_of_mem _ (h2 e he)
        | some p =>
          constructor
          · have hids : ∀ x ∈ st.results.map (fun e => e.id), x ≠ a.uid := by
              intro x hx
              obtain ⟨e, he, rfl⟩ := List.mem_map.mp hx
              intro hxa
              exact hnot (hxa ▸ h2 e he)
            simp [stepEnd, hd, hg, hb, hp, List.map_append]
            refine List.Nodup.append h1 ?_ ?_
            · simp
            intro x hx hx1
            simp only [List.map_cons, List.map_nil, List.mem_singleton] at hx1
            exact hids x hx (by rw [hx1]; rfl)
          · intro e he
            simp [stepEnd, hd, hg, hb, hp] at he ⊢
            rcases he with he | rfl
            · exact Or.inr (h2 e he)
            · exact Or.inl rfl

/-- Every id in the settled emails either was already in the results or is a
UID delivered (with attribute metadata) somewhere in the trace. -/
theorem runFetchJobAux_ids_subset (parser : String → Option Parsed) (now : Int)
    (tr : List FetchEv) (st : JobState) :
    ∀ e ∈ runFetchJobAux parser now st tr,
      e.id ∈ st.results.map (fun x => x.id) ∨ e.id ∈ deliveredUids tr := by
  induction tr generalizing st with
  | nil =>
    intro e he
    exact Or.inl (List.mem_map_of_mem _ he)
  | cons ev rest ih =>
    cases ev with
    | timeout =>
      intro e he
      exact Or.inl (List.mem_map_of_mem _ he)
    | streamError m =>
      intro e he
      exact Or.inl (List.mem_map_of_mem _ he)
    | streamEnd =>
      intro e he
      rw [runFetchJobAux] at he
      exact Or.inl (List.mem_map_of_mem _ ((List.mem_insertionSort tsDescRel).mp he))
    | msg d =>
      intro e he
      rw [runFetchJobAux] at he
      rcases ih (stepEnd parser now st d) e he with hin | hin
      · rcases stepEnd_results_cases parser now st d with hc | ⟨a, p, ha, hc⟩
        · rw [hc] at hin
          exact Or.inl hin
        · rw [hc, List.map_append] at hin
          rcases List.mem_append.mp hin with hin | hin
          · exact Or.inl hin
          · simp only [List.map_cons, List.map_nil, List.mem_singleton] at hin
            right
            simp [deliveredUids, ha, hin, emailObj]
      · right
        cases hd : d.attrsEvent <;> simp [deliveredUids, hd, hin]

/-- The settled emails of the part_000 fetch promise have pairwise distinct
ids, whatever the event trace. -/
theorem runFetchJob_nodup (parser : String → Option Parsed) (now : Int)
    (tr : List FetchEv) :
    ((runFetchJob parser now tr).map (fun e => e.id)).Nodup := by
  suffices h : ∀ st : JobState, (st.results.map (fun e => e.id)).Nodup →
      (∀ e ∈ st.results, e.id ∈ st.processed) →
      ((runFetchJobAux parser now st tr).map (fun e => e.id)).Nodup by
    exact h initState (by simp [initState]) (by simp [initState])
  induction tr with
  | nil => intro st h1 _; exact h1
  | cons ev rest ih =>
    intro st h1 h2
    cases ev with
    | timeout => exact h1
    | streamError m => exact h1
    | streamEnd =>
      rw [runFetchJobAux]
      exact (((List.perm_insertionSort tsDescRel st.results).map
        (fun e => e.id)).nodup_iff).mpr h1
    | msg d =>
      rw [runFetchJobAux]
      obtain ⟨g1, g2⟩ := stepEnd_inv parser now st d h1 h2
      exact ih (stepEnd parser now st d) g1 g2

/-- Removing a delivery whose buffer fails to parse from the trace does not
change the settled emails, provided no later delivery reuses its UID: the
failing delivery only marks its own UID processed. -/
theorem runFetchJobAux_parse_fault (parser : String → Option Parsed) (now : Int)
    (pre post : List FetchEv) (st : JobState) (d : MsgDelivery) (a : Attrs)
    (hattr : d.attrsEvent = some a)
    (hparse : parser (joinChunks d) = none)
    (hfresh : a.uid ∉ deliveredUids post) :
    runFetchJobAux parser now st (pre ++ FetchEv.msg d :: post) =
      runFetchJobAux parser now st (pre ++ post) := by
  induction pre generalizing st with
  | nil =>
    simp only [List.nil_append, runFetchJobAux]
    apply runFetchJobAux_congr
    · exact stepEnd_results_of_parseFail parser now st d hparse
    · intro u hu
      have hne : u ≠ a.uid := fun h => hfresh (h ▸ hu)
      rcases stepEnd_processed_cases parser now st d with hc | ⟨a2, ha2, hc⟩
      · rw [hc]
      · rw [hattr] at ha2
        injection ha2 with ha2
        subst ha2
        rw [hc]
        constructor
        · intro hm
          rcases List.mem_cons.mp hm with h | h
          · exact absurd h hne
          · exact h
        · exact fun hm => List.mem_cons_of_mem _ hm
    | cons ev pre ih =>
      cases ev with
      | msg d2 =>
        simp only [List.cons_append, runFetchJobAux]
        exact ih (stepEnd parser now st d2)
      | timeout => simp [runFetchJobAux]
      | streamError m => simp [runFetchJobAux]
      | streamEnd => simp [runFetchJobAux]

/-- Claim C1, counterexample.  With totalCount = 10, page = 4, pageSize = 4
(a page beyond the last page, since totalPages = 3), the planner's
`endIdx = 10 - 3 * 4 = -2` is negative, and JS `slice` counts a negative end
from the end of the array: the result is the first 8 UIDs reversed — 8
elements, not the empty slice the claim requires, and not the claimed length
`clamp(min(pageSize, totalCount - (page-1)*pageSize)) = 0`. -/
theorem C1_counterexample :
    pageUidsOf [1, 2, 3, 4, 5, 6, 7, 8, 9, 10] 4 4 = [8, 7, 6, 5, 4, 3, 2, 1] ∧
    (pageUidsOf [1, 2, 3, 4, 5, 6, 7, 8, 9, 10] 4 4).length = 8 ∧
    Int.toNat (min (4 : Int) ((10 : Int) - (4 - 1) * 4)) = 0 ∧
    (10 + 4 - 1) / 4 < 4 ∧
    pageUidsOf [1, 2, 3, 4, 5, 6, 7, 8, 9, 10] 4 4 ≠ [] := by
  refine ⟨by decide, by decide, by decide, by decide, by decide⟩

/-- Claim C1, amended.  For page ≥ 1 and pageSize ≥ 1 the planner returns
`uids.slice(startIdx, endIdx).reverse()` whose length is
`min(pageSize, totalCount - (page-1)*pageSize)` whenever
`(page-1)*pageSize ≤ totalCount` (so endIdx is non-negative; in particular a
beyond-last page at an exact page boundary yields the empty slice); but when
`(page-1)*pageSize > totalCount` (a page beyond the last with totalCount not
a multiple of pageSize), the negative endIdx wraps under JS slice semantics
and the length is `2*totalCount - (page-1)*pageSize` clamped to ≥ 0, which
is generally non-zero. -/
theorem C1_window_length (uids : List Nat) (page pageSize : Nat)
    (hp : 1 ≤ page) (hs : 1 ≤ pageSize) :
    (pageUidsOf uids page pageSize).length =
      if (page - 1) * pageSize ≤ uids.length then
        min pageSize (uids.length - (page - 1) * pageSize)
      else
        2 * uids.length - (page - 1) * pageSize := by
  obtain ⟨p, rfl⟩ : ∃ p, page = p + 1 := ⟨page - 1, by omega⟩
  simp only [pageUidsOf, jsSlice, List.length_reverse, List.length_drop,
    List.length_take, Nat.add_sub_cancel]
  have e2 : ((p + 1 : Nat) : Int) * (pageSize : Int) =
      ((p * pageSize : Nat) : Int) + (pageSize : Int) := by push_cast; ring
  have e3 : (((p + 1 : Nat) : Int) - 1) * (pageSize : Int) =
      ((p * pageSize : Nat) : Int) := by push_cast; ring
  rw [e2, e3]
  clear e2 e3
  generalize p * pageSize = A
  simp only [min_def, max_def]
  split_ifs <;> omega

/-- Claim C1, witness for the amended theorem at totalCount = 10, page = 2,
pageSize = 4 (the in-range regime: length 4). -/
theorem C1_window_length_witness :
    1 ≤ 2 ∧ 1 ≤ 4 ∧
    (pageUidsOf [1, 2, 3, 4, 5, 6, 7, 8, 9, 10] 2 4).length =
      (if (2 - 1) * 4 ≤ ([1, 2, 3, 4, 5, 6, 7, 8, 9, 10] : List Nat).length then
        min 4 (([1, 2, 3, 4, 5, 6, 7, 8, 9, 10] : List Nat).length - (2 - 1) * 4)
      else
        2 * ([1, 2, 3, 4, 5, 6, 7, 8, 9, 10] : List Nat).length - (2 - 1) * 4) :=
  ⟨by decide, by decide,
    C1_window_length [1, 2, 3, 4, 5, 6, 7, 8, 9, 10] 2 4 (by decide) (by decide)⟩

/-- Claim C2.  When the fetch deadline fires before the stream ends (the
first terminal event of the trace is the timeout), fetchPage still returns a
success response whose emails are exactly the summaries accumulated from the
deliveries processed before the deadline, and whose
`pagination.totalMessages` is the full search-result size. -/
theorem C2_deadline_partial (s : ImapSession) (page pageSize : Nat)
    (uids : List Nat)
    (hconn : s.connectOk = true) (hbox : s.openBoxError = none)
    (htot : s.boxTotal ≠ 0) (hsearch : s.searchResult = Except.ok uids)
    (hne : ¬ pageUidsOf uids page pageSize = [])
    (hterm : s.trace.find? isTerminal = some FetchEv.timeout) :
    fetchPage s page pageSize =
      ApiResult.ok ⟨(foldSteps s.parser s.now initState
          (s.trace.takeWhile (fun e => !isTerminal e))).results,
        ⟨page, pageSize, uids.length, (uids.length + pageSize - 1) / pageSize,
          decide (page < (uids.length + pageSize - 1) / pageSize)⟩⟩ := by
  have hrun : runFetchJob s.parser s.now s.trace =
      (foldSteps s.parser s.now initState
        (s.trace.takeWhile (fun e => !isTerminal e))).results := by
    rw [runFetchJob]
    exact runFetchJobAux_partial s.parser s.now initState s.trace (Or.inl hterm)
  simp [fetchPage, hconn, hbox, htot, hsearch, hne, hrun]

/-- Claim C2, witness: a concrete session whose deadline fires after one
completed delivery out of three searched UIDs. -/
theorem C2_deadline_partial_witness :
    envDeadline.trace.find? isTerminal = some FetchEv.timeout ∧
    fetchPage envDeadline 1 25 =
      ApiResult.ok ⟨(foldSteps envDeadline.parser envDeadline.now initState
          (envDeadline.trace.takeWhile (fun e => !isTerminal e))).results,
        ⟨1, 25, 3, (3 + 25 - 1) / 25, decide (1 < (3 + 25 - 1) / 25)⟩⟩ :=
  ⟨by decide,
    C2_deadline_partial envDeadline 1 25 [1, 2, 3] rfl rfl (by decide) rfl
      (by decide) (by decide)⟩

/-- Claim C3.  Every success response of fetchPage carries emails with
pairwise distinct ids: the `processed` seen-set makes a UID reaching its
end-of-message event a second time a no-op, so no UID appears twice in one
page's output, whatever duplicate or out-of-order deliveries the transport
produced. -/
theorem C3_uid_dedup (s : ImapSession) (page pageSize : Nat)
    (r : EmailsResponse Email)
    (h : fetchPage s page pageSize = ApiResult.ok r) :
    (r.emails.map (fun e => e.id)).Nodup := by
  simp only [fetchPage] at h
  split at h
  · split at h
    · cases h
    · split at h
      · cases h
        simp
      · split at h
        · cases h
        · split at h
          · cases h
            simp
          · cases h
            exact runFetchJob_nodup s.parser s.now s.trace
  · cases h

/-- Claim C3, witness: a concrete trace whose two distinct deliveries yield
distinct ids in the response. -/
theorem C3_uid_dedup_witness :
    ((([⟨2, "Re", "Unknown", "", "", 200, 200, true, false, "world"⟩,
        ⟨1, "Hi", "Unknown", "", "", 100, 100, true, false, "hello"⟩] :
      List Email)).map (fun e => e.id)).Nodup :=
  C3_uid_dedup envStreamEnd 1 25
    ⟨[⟨2, "Re", "Unknown", "", "", 200, 200, true, false, "world"⟩,
      ⟨1, "Hi", "Unknown", "", "", 100, 100, true, false, "hello"⟩],
     ⟨1, 25, 2, 1, false⟩⟩ (by decide)

/-- Claim C4, counterexample.  When the deadline (or a stream error) settles
the page, the handler resolves the accumulated results WITHOUT the final
sort (the sort happens only in the stream-end handler): with two deliveries
completing in ascending timestamp order (100 then 200) and the deadline
firing, the response's emails are in completion order, not descending by
timestamp. -/
theorem C4_counterexample :
    (fetchPage envUnsorted 1 25).emailsOf =
      some [⟨1, "Hi", "Unknown", "", "", 100, 100, true, false, "hello"⟩,
            ⟨2, "Re", "Unknown", "", "", 200, 200, true, false, "world"⟩] ∧
    ¬ List.Sorted tsDescRel
        [⟨1, "Hi", "Unknown", "", "", 100, 100, true, false, "hello"⟩,
         ⟨2, "Re", "Unknown", "", "", 200, 200, true, false, "world"⟩] := by
  refine ⟨by decide, by decide⟩

/-- Claim C4, amended.  The final descending-timestamp sort runs only when
the fetch stream's own end event settles the page: whenever the first
terminal event of the trace is the stream end, every success response's
emails are sorted descending by timestamp; on the deadline and stream-error
paths the accumulated results are returned in completion order instead. -/
theorem C4_sorted_on_stream_end (s : ImapSession) (page pageSize : Nat)
    (r : EmailsResponse Email)
    (hterm : s.trace.find? isTerminal = some FetchEv.streamEnd)
    (h : fetchPage s page pageSize = ApiResult.ok r) :
    List.Sorted tsDescRel r.emails := by
  simp only [fetchPage] at h
  split at h
  · split at h
    · cases h
    · split at h
      · cases h
        exact List.sorted_nil
      · split at h
        · cases h
        · split at h
          · cases h
            exact List.sorted_nil
          · cases h
            rw [runFetchJob,
              runFetchJobAux_streamEnd s.parser s.now initState s.trace hterm]
            exact List.sorted_insertionSort tsDescRel _
  · cases h

/-- Claim C4, witness for the amended theorem: a stream-end trace whose two
deliveries completed in ascending timestamp order is returned sorted. -/
theorem C4_sorted_on_stream_end_witness :
    envStreamEnd.trace.find? isTerminal = some FetchEv.streamEnd ∧
    List.Sorted tsDescRel
      [⟨2, "Re", "Unknown", "", "", 200, 200, true, false, "world"⟩,
       ⟨1, "Hi", "Unknown", "", "", 100, 100, true, false, "hello"⟩] :=
  ⟨by decide,
    C4_sorted_on_stream_end envStreamEnd 1 25
      ⟨[⟨2, "Re", "Unknown", "", "", 200, 200, true, false, "world"⟩,
        ⟨1, "Hi", "Unknown", "", "", 100, 100, true, false, "hello"⟩],
       ⟨1, 25, 2, 1, false⟩⟩ (by decide) (by decide)⟩

/-- Claim C5, counterexample.  In the variant handler of
src/unnamed/part_002, a mid-flight stream error is NOT recovered: the fetch
promise's error handler rejects, and the page fails with a 500 error
response, even though one summary had already completed before the error. -/
theorem C5_counterexample :
    fetchPage002 envStreamError 1 50 = ApiResult.err 500 ("socket reset") ∧
    stepEnd002 parserConst 0 [] deliveryA =
      [⟨1, "Hi", "Unknown", "", "", some 100, 100, true, false, "(Click to load)"⟩] := by
  refine ⟨by decide, by decide⟩

/-- Claim C5, amended.  In the primary robust handler (src/unnamed/part_000)
a mid-flight stream error is handled exactly like the deadline: the response
is identical to the one produced had the deadline fired at that point, and
fetchPage resolves successfully with the summaries accumulated before the
error.  In the part_002 variant both the stream error and the deadline
instead reject the fetch promise and the page fails with a 500 response. -/
theorem C5_error_like_timeout (s : ImapSession) (page pageSize : Nat)
    (pre post : List FetchEv) (m : String) (uids : List Nat)
    (hpre : ∀ e ∈ pre, isTerminal e = false)
    (htr : s.trace = pre ++ FetchEv.streamError m :: post)
    (hconn : s.connectOk = true) (hbox : s.openBoxError = none)
    (htot : s.boxTotal ≠ 0) (hsearch : s.searchResult = Except.ok uids)
    (hne : ¬ pageUidsOf uids page pageSize = []) :
    fetchPage s page pageSize =
      fetchPage { s with trace := pre ++ FetchEv.timeout :: post } page pageSize ∧
    fetchPage s page pageSize =
      ApiResult.ok ⟨(foldSteps s.parser s.now initState pre).results,
        ⟨page, pageSize, uids.length, (uids.length + pageSize - 1) / pageSize,
          decide (page < (uids.length + pageSize - 1) / pageSize)⟩⟩ := by
  have hrun1 : runFetchJob s.parser s.now s.trace =
      (foldSteps s.parser s.now initState pre).results := by
    rw [runFetchJob, htr,
      runFetchJobAux_partial s.parser s.now initState _
        (Or.inr ⟨m, find?_append_terminal pre post (FetchEv.streamError m) hpre rfl⟩),
      takeWhile_append_terminal pre post (FetchEv.streamError m) hpre rfl]
  have hrun2 : runFetchJob s.parser s.now (pre ++ FetchEv.timeout :: post) =
      (foldSteps s.parser s.now initState pre).results := by
    rw [runFetchJob,
      runFetchJobAux_partial s.parser s.now initState _
        (Or.inl (find?_append_terminal pre post FetchEv.timeout hpre rfl)),
      takeWhile_append_terminal pre post FetchEv.timeout hpre rfl]
  constructor
  · simp [fetchPage, hconn, hbox, htot, hsearch, hne, hrun1, hrun2]
  · simp [fetchPage, hconn, hbox, htot, hsearch, hne, hrun1]

/-- Claim C5, witness for the amended theorem: the stream errors after one
completed delivery; the response equals the deadline response and carries
that one summary. -/
theorem C5_error_like_timeout_witness :
    envStreamError.trace =
      [FetchEv.msg deliveryA] ++ FetchEv.streamError ("socket reset") :: [] ∧
    fetchPage envStreamError 1 25 =
      fetchPage { envStreamError with
        trace := [FetchEv.msg deliveryA] ++ FetchEv.timeout :: [] } 1 25 ∧
    fetchPage envStreamError 1 25 =
      ApiResult.ok ⟨(foldSteps envStreamError.parser envStreamError.now initState
          [FetchEv.msg deliveryA]).results,
        ⟨1, 25, 2, (2 + 25 - 1) / 25, decide (1 < (2 + 25 - 1) / 25)⟩⟩ :=
  ⟨rfl,
    (C5_error_like_timeout envStreamError 1 25 [FetchEv.msg deliveryA] []
      ("socket reset") [1, 2] (by decide) rfl rfl rfl (by decide) rfl (by decide)).1,
    (C5_error_like_timeout envStreamError 1 25 [FetchEv.msg deliveryA] []
      ("socket reset") [1, 2] (by decide) rfl rfl rfl (by decide) rfl (by decide)).2⟩

/-- Claim C6.  Every success response of fetchPage has internally consistent
pagination metadata: `totalPages` is the ceiling of
`totalMessages / pageSize` and `hasMore` holds exactly when the response's
page is below `totalPages`. -/
theorem C6_pagination_invariant (s : ImapSession) (page pageSize : Nat)
    (r : EmailsResponse Email) (hs : 1 ≤ pageSize)
    (h : fetchPage s page pageSize = ApiResult.ok r) :
    r.pagination.totalPages =
      (r.pagination.totalMessages + pageSize - 1) / pageSize ∧
    r.pagination.hasMore = decide (r.pagination.page < r.pagination.totalPages) := by
  simp only [fetchPage] at h
  split at h
  · split at h
    · cases h
    · split at h
      · cases h
        refine ⟨?_, by simp⟩
        simp only []
        rw [Nat.div_eq_of_lt (by omega)]
      · split at h
        · cases h
        · split at h
          · cases h
            exact ⟨rfl, rfl⟩
          · cases h
            exact ⟨rfl, rfl⟩
  · cases h

/-- Claim C6, witness: the empty-mailbox short-circuit response satisfies
the invariant. -/
theorem C6_pagination_invariant_witness :
    1 ≤ 25 ∧ fetchPage envBoxEmpty 1 25 =
      ApiResult.ok ⟨[], ⟨1, 25, 0, 0, false⟩⟩ ∧
    ((⟨[], ⟨1, 25, 0, 0, false⟩⟩ : EmailsResponse Email).pagination.totalPages =
      ((⟨[], ⟨1, 25, 0, 0, false⟩⟩ : EmailsResponse Email).pagination.totalMessages
        + 25 - 1) / 25 ∧
    (⟨[], ⟨1, 25, 0, 0, false⟩⟩ : EmailsResponse Email).pagination.hasMore =
      decide ((⟨[], ⟨1, 25, 0, 0, false⟩⟩ : EmailsResponse Email).pagination.page <
        (⟨[], ⟨1, 25, 0, 0, false⟩⟩ : EmailsResponse Email).pagination.totalPages)) :=
  ⟨by decide, by decide,
    C6_pagination_invariant envBoxEmpty 1 25 ⟨[], ⟨1, 25, 0, 0, false⟩⟩
      (by decide) (by decide)⟩

/-- Claim C7, counterexample.  When the mailbox is non-empty but the filter
matches no messages (totalCount = 0 via an empty search result), the
response echoes the REQUESTED page (here 3) in `pagination.page`, not the
page 1 the claim requires regardless of the requested page. -/
theorem C7_counterexample :
    fetchPage envFilterEmpty 3 25 = ApiResult.ok ⟨[], ⟨3, 25, 0, 0, false⟩⟩ ∧
    (3 : Nat) ≠ 1 := by
  refine ⟨by decide, by decide⟩

/-- Claim C7, amended.  A request resolving to totalCount = 0 returns
`{emails: [], totalMessages: 0, totalPages: 0, hasMore: false}` without
error, but `pagination.page` is 1 only when the mailbox itself is empty
(the handler short-circuits on `box.messages.total === 0` before
searching); when the mailbox is non-empty and the filter matches nothing,
the requested page is echoed instead. -/
theorem C7_empty_result_set (s : ImapSession) (page pageSize : Nat)
    (hconn : s.connectOk = true) (hbox : s.openBoxError = none) :
    (s.boxTotal = 0 →
      fetchPage s page pageSize = ApiResult.ok ⟨[], ⟨1, pageSize, 0, 0, false⟩⟩) ∧
    (s.boxTotal ≠ 0 → s.searchResult = Except.ok [] →
      fetchPage s page pageSize =
        ApiResult.ok ⟨[], ⟨page, pageSize, 0, 0, false⟩⟩) := by
  constructor
  · intro h0
    simp [fetchPage, hconn, hbox, h0]
  · intro h0 hsearch
    have hempty : pageUidsOf [] page pageSize = [] := by
      simp [pageUidsOf, jsSlice]
    have htp : (pageSize - 1) / pageSize = 0 := by
      rcases Nat.eq_zero_or_pos pageSize with hz | hpos
      · simp [hz]
      · exact Nat.div_eq_of_lt (by omega)
    simp [fetchPage, hconn, hbox, h0, hsearch, hempty, htp]

/-- Claim C7, witness for the amended theorem: the empty-mailbox case
answers page 1, the empty-filter case echoes the requested page 3. -/
theorem C7_empty_result_set_witness :
    fetchPage envBoxEmpty 3 25 = ApiResult.ok ⟨[], ⟨1, 25, 0, 0, false⟩⟩ ∧
    fetchPage envFilterEmpty 3 25 = ApiResult.ok ⟨[], ⟨3, 25, 0, 0, false⟩⟩ :=
  ⟨(C7_empty_result_set envBoxEmpty 3 25 rfl rfl).1 rfl,
    (C7_empty_result_set envFilterEmpty 3 25 rfl rfl).2 (by decide) rfl⟩

/-- Delivered UIDs distribute over trace concatenation. -/
theorem deliveredUids_append (l1 l2 : List FetchEv) :
    deliveredUids (l1 ++ l2) = deliveredUids l1 ++ deliveredUids l2 := by
  induction l1 with
  | nil => simp [deliveredUids]
  | cons e rest ih =>
    cases e with
    | msg d =>
      cases hd : d.attrsEvent <;> simp [deliveredUids, hd, ih]
    | timeout => simp [deliveredUids, ih]
    | streamError m => simp [deliveredUids, ih]
    | streamEnd => simp [deliveredUids, ih]

/-- Claim C8.  A parse failure of one delivery is isolated: the response's
emails are the same as if that delivery had never arrived (its UID being
delivered nowhere else in the trace), the failing UID is absent from the
output, the page still succeeds, and fetchPage produces an error response
only for connection, openBox or search faults. -/
theorem C8_parse_fault_isolated (s : ImapSession) (page pageSize : Nat)
    (pre post : List FetchEv) (d : MsgDelivery) (a : Attrs) (uids : List Nat)
    (hattr : d.attrsEvent = some a)
    (hparse : s.parser (joinChunks d) = none)
    (hfresh : a.uid ∉ deliveredUids (pre ++ post))
    (htr : s.trace = pre ++ FetchEv.msg d :: post)
    (hconn : s.connectOk = true) (hbox : s.openBoxError = none)
    (htot : s.boxTotal ≠ 0) (hsearch : s.searchResult = Except.ok uids) :
    (fetchPage s page pageSize).emailsOf =
      (fetchPage { s with trace := pre ++ post } page pageSize).emailsOf ∧
    (∀ l, (fetchPage s page pageSize).emailsOf = some l →
      a.uid ∉ l.map (fun e => e.id)) ∧
    (fetchPage s page pageSize).isOk = true ∧
    (∀ s2 : ImapSession, ∀ p2 q2 : Nat, (fetchPage s2 p2 q2).isOk = false →
      s2.connectOk = false ∨ s2.openBoxError ≠ none ∨
      ∃ m, s2.searchResult = Except.error m) := by
  have hfreshPost : a.uid ∉ deliveredUids post := by
    rw [deliveredUids_append] at hfresh
    exact fun hm => hfresh (List.mem_append.mpr (Or.inr hm))
  have hrun : runFetchJob s.parser s.now s.trace =
      runFetchJob s.parser s.now (pre ++ post) := by
    rw [htr, runFetchJob, runFetchJob]
    exact runFetchJobAux_parse_fault s.parser s.now pre post initState d a
      hattr hparse hfreshPost
  refine ⟨?_, ?_, ?_, ?_⟩
  · by_cases hne : pageUidsOf uids page pageSize = []
    · simp [fetchPage, hconn, hbox, htot, hsearch, hne]
    · simp [fetchPage, hconn, hbox, htot, hsearch, hne, ApiResult.emailsOf, hrun]
  · intro l hl
    by_cases hne : pageUidsOf uids page pageSize = []
    · simp [fetchPage, hconn, hbox, htot, hsearch, hne, ApiResult.emailsOf] at hl
      simp [hl]
    · simp [fetchPage, hconn, hbox, htot, hsearch, hne, ApiResult.emailsOf] at hl
      intro hmem
      obtain ⟨e, he, hid⟩ := List.mem_map.mp hmem
      rw [← hl, hrun] at he
      rcases runFetchJobAux_ids_subset s.parser s.now (pre ++ post) initState e he
        with hin | hin
      · simp [initState] at hin
      · exact hfresh (hid ▸ hin)
  · by_cases hne : pageUidsOf uids page pageSize = []
    · simp [fetchPage, hconn, hbox, htot, hsearch, hne, ApiResult.isOk]
    · simp [fetchPage, hconn, hbox, htot, hsearch, hne, ApiResult.isOk]
  · intro s2 p2 q2 hfail
    by_cases hc2 : s2.connectOk
    · cases hob : s2.openBoxError with
      | some m => exact Or.inr (Or.inl (by simp [hob]))
      | none =>
        by_cases hb0 : s2.boxTotal = 0
        · simp [fetchPage, hc2, hob, hb0, ApiResult.isOk] at hfail
        · cases hsr : s2.searchResult with
          | error m => exact Or.inr (Or.inr ⟨m, rfl⟩)
          | ok u2 =>
            by_cases hne2 : pageUidsOf u2 p2 q2 = []
            · simp [fetchPage, hc2, hob, hb0, hsr, hne2, ApiResult.isOk] at hfail
            · simp [fetchPage, hc2, hob, hb0, hsr, hne2, ApiResult.isOk] at hfail
    · exact Or.inl (by simpa using hc2)

/-- Claim C8, witness: the second of two deliveries fails to parse; the
response equals the one for the trace without it and the page succeeds. -/
theorem C8_parse_fault_isolated_witness :
    (fetchPage envParseFault 1 25).emailsOf =
      (fetchPage { envParseFault with
        trace := [FetchEv.msg deliveryA] ++ [FetchEv.streamEnd] } 1 25).emailsOf ∧
    (fetchPage envParseFault 1 25).isOk = true :=
  ⟨(C8_parse_fault_isolated envParseFault 1 25 [FetchEv.msg deliveryA]
      [FetchEv.streamEnd] deliveryBad ⟨7, []⟩ [1, 7] rfl (by decide) (by decide)
      rfl rfl rfl (by decide) rfl).1,
    (C8_parse_fault_isolated envParseFault 1 25 [FetchEv.msg deliveryA]
      [FetchEv.streamEnd] deliveryBad ⟨7, []⟩ [1, 7] rfl (by decide) (by decide)
      rfl rfl rfl (by decide) rfl).2.2.1⟩

/-- Claim C9, counterexample.  A delivery whose attribute-metadata event
never arrives leaves the captured `uid` undefined, so the end-of-message
handler's `!uid` guard drops the message entirely: despite a non-empty
buffer that parses successfully, the message does NOT appear in the output
(with or without defaulted flags). -/
theorem C9_counterexample :
    (fetchPage envNoAttrs 1 25).emailsOf = some [] ∧
    ¬ joinChunks deliveryNoAttrs = "" ∧
    envNoAttrs.parser (joinChunks deliveryNoAttrs) = some sampleParsedA ∧
    deliveryNoAttrs.attrsEvent = none := by
  refine ⟨by decide, by decide, by decide, by decide⟩

/-- Claim C9, amended.  The unread/unstarred defaulting applies to the
`attributes` PROPERTY of the message object at summary time: a delivery
whose attributes event arrived (supplying the UID) but whose message object
carries no attribute metadata is emitted with `unread = true` and
`starred = false` once its non-empty buffer parses; a delivery whose
attributes event never arrives has no UID and is dropped from the output
entirely. -/
theorem C9_flags_default (parser : String → Option Parsed) (now : Int)
    (d d2 : MsgDelivery) (a : Attrs) (p : Parsed)
    (hattr : d.attrsEvent = some a) (hprop : d.attrsProp = none)
    (huid : a.uid ≠ 0) (hbuf : ¬ joinChunks d = "")
    (hparse : parser (joinChunks d) = some p)
    (hd2 : d2.attrsEvent = none) :
    runFetchJob parser now [FetchEv.msg d, FetchEv.streamEnd] =
      [emailObj now a.uid d p] ∧
    (emailObj now a.uid d p).unread = true ∧
    (emailObj now a.uid d p).starred = false ∧
    runFetchJob parser now [FetchEv.msg d2, FetchEv.streamEnd] = [] := by
  refine ⟨?_, ?_, ?_, ?_⟩
  · simp [runFetchJob, runFetchJobAux, stepEnd, hattr, huid, hbuf, hparse,
      initState, List.insertionSort, List.orderedInsert]
  · simp [emailObj, hprop]
  · simp [emailObj, hprop]
  · simp [runFetchJob, runFetchJobAux, stepEnd, hd2, initState,
      List.insertionSort]

/-- Claim C9, witness for the amended theorem: UID 5 delivered with an
attributes event but no attributes property is emitted unread and
unstarred; the attribute-less delivery is dropped. -/
theorem C9_flags_default_witness :
    runFetchJob parserConst 0 [FetchEv.msg deliveryPropless, FetchEv.streamEnd] =
      [emailObj 0 5 deliveryPropless sampleParsedA] ∧
    (emailObj 0 5 deliveryPropless sampleParsedA).unread = true ∧
    (emailObj 0 5 deliveryPropless sampleParsedA).starred = false ∧
    runFetchJob parserConst 0 [FetchEv.msg deliveryNoAttrs, FetchEv.streamEnd] = [] :=
  C9_flags_default parserConst 0 deliveryPropless deliveryNoAttrs ⟨5, []⟩
    sampleParsedA rfl rfl (by decide) (by decide) rfl rfl

/-- Claim C10.  In the primary paginated handler of src/server.js, the page
size is the local constant 25: the response is entirely independent of any
`pageSize` field supplied in the request body, and every success response
echoes `pagination.pageSize = 25`. -/
theorem C10_pageSize_constant (s : ImapSession) (b : EmailsBody) (ps : Option Nat) :
    serverJsFetchPage s { b with pageSize := ps } = serverJsFetchPage s b ∧
    ∀ r : EmailsResponse EmailSrv,
      serverJsFetchPage s b = some (ApiResult.ok r) → r.pagination.pageSize = 25 := by
  constructor
  · cases b
    rfl
  · intro r h
    simp only [serverJsFetchPage] at h
    split at h
    · split at h
      · simp at h
      · split at h
        · simp at h
        · split at h
          · simp only [Option.some.injEq] at h
            cases h
            rfl
          · split at h
            · simp at h
            · simp at h
            · simp only [Option.some.injEq] at h
              cases h
              rfl
    · simp at h

/-- Claim C10, witness: supplying pageSize 7 in the body changes nothing and
the success response echoes pageSize 25. -/
theorem C10_pageSize_constant_witness :
    serverJsFetchPage envSrv { bodyPage1 with pageSize := some 7 } =
      serverJsFetchPage envSrv bodyPage1 ∧
    (⟨[⟨1, "Hi", "Unknown", "", "", some 100, 100, true, false,
        "(Click to load)", none, none⟩],
      ⟨1, 25, 1, 1, false⟩⟩ : EmailsResponse EmailSrv).pagination.pageSize = 25 :=
  ⟨(C10_pageSize_constant envSrv bodyPage1 (some 7)).1,
    (C10_pageSize_constant envSrv bodyPage1 (some 7)).2
      ⟨[⟨1, "Hi", "Unknown", "", "", some 100, 100, true, false,
          "(Click to load)", none, none⟩],
        ⟨1, 25, 1, 1, false⟩⟩ (by decide)⟩
